import Mathlib

/-!
Shallow embedding of `src/firs_homework.py`: an in-memory ledger of product
cards (`class ProductCard`) with a dict keyed by card number, field setters
performing validation, and transactional `create_card`, `get_card`,
`update_card`, `write_off_card` operations.

Modelling choices:
* Python dict values are dynamically typed; a stored field value is modelled
  by the sum type `Value` (string / int / float, with floats modelled as
  rationals — no claim here depends on rounding).
* The card dictionary `self._cards` is modelled as an insertion-ordered
  association list `List (Nat × Card)`; `dictSet`, `modifyCard`, `eraseCard`
  model dict assignment, in-place field mutation and `del`, acting on the
  first occurrence of the key (a Python dict has a single slot per key).
* Exceptions are modelled by `Except`: setters return
  `Except String Cards` (the `ValueError` message, or, for an operation
  Python would abort with `AttributeError`/`TypeError` on a wrongly typed
  value, a type-error message — in `update_card` both are caught by the
  same `except Exception` handler); operations return the post-call state
  together with `Except LedgerError α`, since Python leaves the mutated
  state in place when an exception propagates.
* `str.strip` is modelled over the ASCII whitespace characters, `str.lower`
  over ASCII and the Russian alphabet the program uses, and the regex
  `^\d{2}\.\d{2}\.\d{4}$` with ASCII digits plus `re`'s quirk that `$` also
  matches before a single trailing newline.
-/

namespace Homework

/-- Decidable equality for `Except`, needed to evaluate concrete calls. -/
instance {ε α : Type} [DecidableEq ε] [DecidableEq α] : DecidableEq (Except ε α)
  | .error e, .error f =>
    if h : e = f then .isTrue (by rw [h])
    else .isFalse (by intro he; cases he; exact h rfl)
  | .error _, .ok _ => .isFalse (by intro h; cases h)
  | .ok _, .error _ => .isFalse (by intro h; cases h)
  | .ok a, .ok b =>
    if h : a = b then .isTrue (by rw [h])
    else .isFalse (by intro he; cases he; exact h rfl)

/-- A dynamically typed Python value as stored in a card dict. -/
inductive Value where
  | str : String → Value
  | int : Int → Value
  | rat : Rat → Value
deriving DecidableEq

/-- One card record: the fixed key set of the dict built by `create_card`
(`number`, plus the eleven data fields). `number` is kept as a `Nat` since
it is the dict key and is never written through the generic field paths. -/
structure Card where
  number : Nat
  name : Value
  quantity : Value
  status : Value
  supplier : Value
  manufacturer : Value
  cost : Value
  location : Value
  arrival_date : Value
  article : Value
  responsible : Value
  notes : Value
deriving DecidableEq

/-- The `self._cards` dict: insertion-ordered association list. -/
abbrev Cards := List (Nat × Card)

/-- First-occurrence lookup, `self._cards[n]` / `n in self._cards`. -/
def lookupCard : Cards → Nat → Option Card
  | [], _ => none
  | (k, c) :: rest, n => if k = n then some c else lookupCard rest n

/-- Dict assignment `self._cards[n] = c`: replace the value in the existing
slot, else append a new entry at the end (dict insertion order). -/
def dictSet : Cards → Nat → Card → Cards
  | [], n, c => [(n, c)]
  | (k, c0) :: rest, n, c =>
    if k = n then (k, c) :: rest else (k, c0) :: dictSet rest n c

/-- In-place mutation `self._cards[n][field] = v` of an existing entry
(the setters only reach this with `n` present; on an absent key this is a
no-op where Python would raise `KeyError`, a path none of the operations
can take). -/
def modifyCard : Cards → Nat → (Card → Card) → Cards
  | [], _, _ => []
  | (k, c) :: rest, n, f =>
    if k = n then (k, f c) :: rest else (k, c) :: modifyCard rest n f

/-- `del self._cards[n]`. -/
def eraseCard : Cards → Nat → Cards
  | [], _ => []
  | (k, c) :: rest, n => if k = n then rest else (k, c) :: eraseCard rest n

/-- The ledger object: `self._cards` and `self._next_number`. -/
structure ProductCard where
  cards : Cards
  next_number : Nat
deriving DecidableEq

/-- `ProductCard.__init__`. -/
def initLedger : ProductCard := { cards := [], next_number := 1 }

/-- `ProductCard.STATUSES`: status key → display label. -/
def STATUSES : List (String × String) :=
  [("ожидание", "Ожидание приема"),
   ("учтено", "Состоит/принято к учету"),
   ("списано", "Списано")]

/-- The keys of `STATUSES` (what `status_lower not in self.STATUSES` tests). -/
def statusKeys : List String := STATUSES.map Prod.fst

/-- ASCII whitespace for the model of Python's `str.strip()`. -/
def pySpace (c : Char) : Bool :=
  c = ' ' || c = '\t' || c = '\n' || c = '\r' || c = '\x0b' || c = '\x0c'

/-- `str.strip()` on the character list: drop whitespace from both ends. -/
def pyStrip (l : List Char) : List Char :=
  ((l.dropWhile pySpace).reverse.dropWhile pySpace).reverse

/-- `s.strip()` as a string. -/
def pyStripStr (s : String) : String := String.mk (pyStrip s.data)

/-- `str.lower()` per character, for ASCII and the Russian alphabet. -/
def pyLowerChar (c : Char) : Char :=
  if 'A' ≤ c && c ≤ 'Z' then Char.ofNat (c.toNat + 32)
  else if 0x410 ≤ c.toNat && c.toNat ≤ 0x42F then Char.ofNat (c.toNat + 0x20)
  else if c.toNat = 0x401 then Char.ofNat 0x451
  else c

/-- `s.lower()`. -/
def pyLower (s : String) : String := String.mk (s.data.map pyLowerChar)

/-- Ten characters shaped `\d\d\.\d\d\.\d\d\d\d`. -/
def matchesDateChars : List Char → Bool
  | [d1, d2, p1, m1, m2, p2, y1, y2, y3, y4] =>
    d1.isDigit && d2.isDigit && p1 = '.' && m1.isDigit && m2.isDigit &&
      p2 = '.' && y1.isDigit && y2.isDigit && y3.isDigit && y4.isDigit
  | _ => false

/-- `re.match(r"^\d{2}\.\d{2}\.\d{4}$", s)` is truthy: the pattern matches
the whole string, or the whole string minus one trailing newline (`$`). -/
def matchesDate (s : String) : Bool :=
  matchesDateChars s.data ||
    (s.data.getLast? = some '\n' && matchesDateChars s.data.dropLast)

/-- The error kinds of §7, each carrying the `ValueError` message text the
source raises (`PolicyError` is the spec's name for the write-off guard's
`ValueError`, `NotFoundError` for `get_card`'s). -/
inductive LedgerError where
  | validation : String → LedgerError
  | notFound : String → LedgerError
  | policy : String → LedgerError
deriving DecidableEq

/-- `_set_name` failure condition: `not value or len(value.strip()) < 2`. -/
def nameBad (s : String) : Bool := s = "" || (pyStrip s.data).length < 2

/-- `_set_supplier` failure condition (same shape as the name rule). -/
def supplierBad (s : String) : Bool := s = "" || (pyStrip s.data).length < 2

/-- `_set_status` failure condition: lower-cased value not a `STATUSES` key. -/
def statusBad (s : String) : Bool := !(statusKeys.contains (pyLower s))

/-- `_set_article` failure condition: `not value or not value.strip()`. -/
def articleBad (s : String) : Bool := s = "" || pyStrip s.data = []

/-- `_set_arrival_date` failure condition: pattern mismatch. -/
def dateBad (s : String) : Bool := !(matchesDate s)

/-- `value < 0` fails for a numeric `Value`: negative number, or a string,
on which Python's comparison with `0` raises `TypeError`. -/
def numFails : Value → Bool
  | .int n => decide (n < 0)
  | .rat q => decide (q < 0)
  | .str _ => true

/-- `_set_name`: validate, then write the raw value (not the trimmed one). -/
def set_name (cards : Cards) (n : Nat) (v : Value) : Except String Cards :=
  match v with
  | .str s =>
    if nameBad s then .error "Наименование должно содержать не менее двух символов"
    else .ok (modifyCard cards n (fun c => { c with name := .str s }))
  | _ => .error "AttributeError: no attribute strip"

/-- `_set_quantity`: reject negatives, store the value as passed. -/
def set_quantity (cards : Cards) (n : Nat) (v : Value) : Except String Cards :=
  match v with
  | .str _ => .error "TypeError: unorderable types"
  | .int q =>
    if q < 0 then .error "Количество не может быть отрицательным"
    else .ok (modifyCard cards n (fun c => { c with quantity := .int q }))
  | .rat q =>
    if q < 0 then .error "Количество не может быть отрицательным"
    else .ok (modifyCard cards n (fun c => { c with quantity := .rat q }))

/-- `_set_status`: lower-case, require a `STATUSES` key, store the
lower-cased value. -/
def set_status (cards : Cards) (n : Nat) (v : Value) : Except String Cards :=
  match v with
  | .str s =>
    if statusBad s then .error "Некорректное состояние"
    else .ok (modifyCard cards n (fun c => { c with status := .str (pyLower s) }))
  | _ => .error "AttributeError: no attribute lower"

/-- `_set_supplier`: validate, then write the raw value. -/
def set_supplier (cards : Cards) (n : Nat) (v : Value) : Except String Cards :=
  match v with
  | .str s =>
    if supplierBad s then .error "Поставщик должен быть указан"
    else .ok (modifyCard cards n (fun c => { c with supplier := .str s }))
  | _ => .error "AttributeError: no attribute strip"

/-- `_set_cost`: reject negatives, store the value as passed. -/
def set_cost (cards : Cards) (n : Nat) (v : Value) : Except String Cards :=
  match v with
  | .str _ => .error "TypeError: unorderable types"
  | .int q =>
    if q < 0 then .error "Стоимость не может быть отрицательной"
    else .ok (modifyCard cards n (fun c => { c with cost := .int q }))
  | .rat q =>
    if q < 0 then .error "Стоимость не может быть отрицательной"
    else .ok (modifyCard cards n (fun c => { c with cost := .rat q }))

/-- `_set_arrival_date`: pattern check, store the raw value. -/
def set_arrival_date (cards : Cards) (n : Nat) (v : Value) : Except String Cards :=
  match v with
  | .str s =>
    if dateBad s then .error "Дата поступления должна быть в формате ДД.ММ.ГГГГ"
    else .ok (modifyCard cards n (fun c => { c with arrival_date := .str s }))
  | _ => .error "TypeError: expected string"

/-- `_set_article`: validate, store the **stripped** value. -/
def set_article (cards : Cards) (n : Nat) (v : Value) : Except String Cards :=
  match v with
  | .str s =>
    if articleBad s then .error "Артикул должен быть указан"
    else .ok (modifyCard cards n (fun c => { c with article := .str (pyStripStr s) }))
  | _ => .error "AttributeError: no attribute strip"

/-- The placeholder record `create_card` inserts before validation. -/
def placeholderCard (temp_number : Nat) (manufacturer location responsible notes : String) : Card :=
  { number := temp_number
    name := .str ""
    quantity := .int 0
    status := .str "ожидание"
    supplier := .str ""
    manufacturer := .str manufacturer
    cost := .rat 0
    location := .str location
    arrival_date := .str ""
    article := .str ""
    responsible := .str responsible
    notes := .str notes }

/-- The `try` block of `create_card`: the seven validated setters applied
in source order to the staged dict, stopping at the first `ValueError`. -/
def createSetters (cards0 : Cards) (t : Nat) (name : String) (quantity : Int)
    (status supplier : String) (cost : Rat) (article arrival_date : String) :
    Except String Cards := do
  let c1 ← set_name cards0 t (.str name)
  let c2 ← set_quantity c1 t (.int quantity)
  let c3 ← set_status c2 t (.str status)
  let c4 ← set_supplier c3 t (.str supplier)
  let c5 ← set_cost c4 t (.rat cost)
  let c6 ← set_article c5 t (.str article)
  set_arrival_date c6 t (.str arrival_date)

/-- `create_card`: insert a placeholder under `self._next_number`, run the
seven setters in source order; on any `ValueError` delete the placeholder
and fail (the counter is only advanced on full success). Returns the
post-call state together with the result. -/
def create_card (st : ProductCard) (name : String) (quantity : Int)
    (status supplier manufacturer : String) (cost : Rat)
    (location article responsible arrival_date notes : String) :
    ProductCard × Except LedgerError Nat :=
  let temp_number := st.next_number
  let cards0 := dictSet st.cards temp_number
    (placeholderCard temp_number manufacturer location responsible notes)
  match createSetters cards0 temp_number name quantity status supplier cost
      article arrival_date with
  | .error e =>
    ({ cards := eraseCard cards0 temp_number, next_number := st.next_number },
     .error (.validation ("\nОшибка валидации данных: " ++ e)))
  | .ok cardsFinal =>
    ({ cards := cardsFinal, next_number := st.next_number + 1 },
     .ok st.next_number)

/-- `get_card`: lookup, raising not-found. Read-only. -/
def get_card (st : ProductCard) (n : Nat) : Except LedgerError Card :=
  match lookupCard st.cards n with
  | none => .error (.notFound ("\nКарточка с номером " ++ toString n ++ " не найдена"))
  | some c => .ok c

/-- `write_off_card`: only from status `учтено`; sets status `списано` and
quantity `0`. -/
def write_off_card (st : ProductCard) (n : Nat) : ProductCard × Except LedgerError Bool :=
  match get_card st n with
  | .error e => (st, .error e)
  | .ok card =>
    if card.status ≠ Value.str "учтено" then
      (st, .error (.policy "\nСписание возможно только для карточек в состоянии: Состоит/принято к учету"))
    else
      let cards2 :=
        modifyCard st.cards n
          (fun c => { c with status := .str "списано", quantity := .int 0 })
      ({ st with cards := cards2 }, .ok true)

/-- The keys of the `field_setters` dict in `update_card`. -/
def field_setters : List String :=
  ["name", "quantity", "status", "supplier", "cost", "arrival_date", "article"]

/-- Dispatch `field_setters[field](card_number, value)` (only called with
`field ∈ field_setters`). -/
def applySetter (cards : Cards) (n : Nat) (field : String) (v : Value) :
    Except String Cards :=
  if field = "name" then set_name cards n v
  else if field = "quantity" then set_quantity cards n v
  else if field = "status" then set_status cards n v
  else if field = "supplier" then set_supplier cards n v
  else if field = "cost" then set_cost cards n v
  else if field = "arrival_date" then set_arrival_date cards n v
  else if field = "article" then set_article cards n v
  else .ok cards

/-- The key set of every card dict (tested by `field in card`). -/
def cardFields : List String :=
  ["number", "name", "quantity", "status", "supplier", "manufacturer",
   "cost", "location", "arrival_date", "article", "responsible", "notes"]

/-- Raw dict write `card[field] = value` for a data field (the update
trapdoor; `number` is excluded by the caller's guard). -/
def setPlainField (c : Card) (field : String) (v : Value) : Card :=
  if field = "name" then { c with name := v }
  else if field = "quantity" then { c with quantity := v }
  else if field = "status" then { c with status := v }
  else if field = "supplier" then { c with supplier := v }
  else if field = "manufacturer" then { c with manufacturer := v }
  else if field = "cost" then { c with cost := v }
  else if field = "location" then { c with location := v }
  else if field = "arrival_date" then { c with arrival_date := v }
  else if field = "article" then { c with article := v }
  else if field = "responsible" then { c with responsible := v }
  else if field = "notes" then { c with notes := v }
  else c

/-- One iteration of the `for field, value in kwargs.items()` loop:
validated setter if registered, raw overwrite if a legal non-`number` card
key, silently nothing otherwise. -/
def updateStep (cards : Cards) (n : Nat) (field : String) (v : Value) :
    Except String Cards :=
  if field ∈ field_setters then applySetter cards n field v
  else if field ∈ cardFields ∧ field ≠ "number" then
    .ok (modifyCard cards n (fun c => setPlainField c field v))
  else .ok cards

/-- The whole kwargs loop, stopping at the first exception. -/
def runUpdates (cards : Cards) (n : Nat) : List (String × Value) → Except String Cards
  | [] => .ok cards
  | (field, v) :: rest =>
    match updateStep cards n field v with
    | .error e => .error e
    | .ok cards2 => runUpdates cards2 n rest

/-- `update_card`: snapshot (`old_card = card.copy()`), run the loop, and on
any exception restore the snapshot (`self._cards[card_number] = old_card`)
and re-raise as a validation error. The kwargs mapping is modelled as an
insertion-ordered list of (field, value) pairs. -/
def update_card (st : ProductCard) (n : Nat) (kwargs : List (String × Value)) :
    ProductCard × Except LedgerError Unit :=
  match get_card st n with
  | .error e => (st, .error e)
  | .ok card =>
    let old_card := card
    match runUpdates st.cards n kwargs with
    | .ok cards2 => ({ st with cards := cards2 }, .ok ())
    | .error e =>
      ({ st with cards := dictSet st.cards n old_card },
       .error (.validation ("\nОшибка изменения: " ++ e)))

/-- Modelled from the spec: the listing operation of §4.3 / §6
(`list() -> sequence<Card>`). The source's console menu (option 5) calls
`inventory.list_cards()`, but `ProductCard` does not define the method;
per the spec it returns the full ordered sequence of stored cards — the
dict's values in insertion order — as a snapshot, with no filtering or
pagination. -/
def list_cards (st : ProductCard) : List Card := st.cards.map Prod.snd

/-- A call of one of the four mutating/public entry points, for
reachability statements. -/
inductive Op where
  | create (name : String) (quantity : Int) (status supplier manufacturer : String)
      (cost : Rat) (location article responsible arrival_date notes : String)
  | get (n : Nat)
  | update (n : Nat) (kwargs : List (String × Value))
  | writeOff (n : Nat)

/-- The state after one public call (`get_card` is read-only). -/
def applyOp (st : ProductCard) : Op → ProductCard
  | .create name quantity status supplier manufacturer cost location article
      responsible arrival_date notes =>
    (create_card st name quantity status supplier manufacturer cost location
      article responsible arrival_date notes).1
  | .get _ => st
  | .update n kwargs => (update_card st n kwargs).1
  | .writeOff n => (write_off_card st n).1

/-- The state after a whole call sequence from a fresh ledger. -/
def runOps (ops : List Op) : ProductCard := ops.foldl applyOp initLedger

/-- `field, value` pair whose validated setter would reject it: exactly the
payload entries on which the `update_card` loop raises. Fields without a
registered validator never fail. -/
def setterFails (field : String) (v : Value) : Bool :=
  if field = "name" then match v with | .str s => nameBad s | _ => true
  else if field = "quantity" then numFails v
  else if field = "status" then match v with | .str s => statusBad s | _ => true
  else if field = "supplier" then match v with | .str s => supplierBad s | _ => true
  else if field = "cost" then numFails v
  else if field = "arrival_date" then match v with | .str s => dateBad s | _ => true
  else if field = "article" then match v with | .str s => articleBad s | _ => true
  else false

/-- A value that is a legal stored status: a string among the keys of
`STATUSES`. -/
def statusOk (v : Value) : Bool :=
  match v with
  | .str s => statusKeys.contains s
  | _ => false

/-- Every stored card's status is a legal enumerated status. -/
def StatusInvL (cards : Cards) : Prop :=
  ∀ p ∈ cards, statusOk (Card.status p.2) = true

/-- Sample card: the record stored by
`create_card initLedger "ab" 1 "учтено" "ab" "m" 0 "loc" "AR" "resp"
"01.01.2024" ""` (checked by concrete evaluation below). -/
def wCard1 : Card :=
  { number := 1, name := Value.str "ab", quantity := Value.int 1,
    status := Value.str "учтено", supplier := Value.str "ab",
    manufacturer := Value.str "m", cost := Value.rat 0,
    location := Value.str "loc", arrival_date := Value.str "01.01.2024",
    article := Value.str "AR", responsible := Value.str "resp",
    notes := Value.str "" }

/-- Ledger state after that one successful create. -/
def wSt1 : ProductCard := { cards := [(1, wCard1)], next_number := 2 }

/-- `wCard1` after write-off: status `списано`, quantity 0. -/
def wCard1w : Card :=
  { wCard1 with status := Value.str "списано", quantity := Value.int 0 }

/-- Ledger state after creating `wCard1` and writing it off. -/
def wSt2 : ProductCard := { cards := [(1, wCard1w)], next_number := 2 }

/-! ### Association-list (dict) lemmas -/

theorem lookup_dictSet_self (cards : Cards) (n : Nat) (c : Card) :
    lookupCard (dictSet cards n c) n = some c := by
  induction cards with
  | nil => simp [dictSet, lookupCard]
  | cons p rest ih =>
    obtain ⟨k, c0⟩ := p
    by_cases h : k = n <;> simp [dictSet, lookupCard, h, ih]

theorem lookup_dictSet_ne (cards : Cards) (n m : Nat) (c : Card) (h : m ≠ n) :
    lookupCard (dictSet cards n c) m = lookupCard cards m := by
  induction cards with
  | nil => simp [dictSet, lookupCard, Ne.symm h]
  | cons p rest ih =>
    obtain ⟨k, c0⟩ := p
    by_cases hk : k = n
    · subst hk
      simp [dictSet, lookupCard, Ne.symm h]
    · simp [dictSet, lookupCard, hk, ih]

theorem dictSet_lookup_eq (cards : Cards) (n : Nat) (c : Card)
    (h : lookupCard cards n = some c) : dictSet cards n c = cards := by
  induction cards with
  | nil => simp [lookupCard] at h
  | cons p rest ih =>
    obtain ⟨k, c0⟩ := p
    by_cases hk : k = n
    · subst hk
      simp [lookupCard] at h
      simp [dictSet, h]
    · simp [lookupCard, hk] at h
      simp [dictSet, hk, ih h]

theorem erase_dictSet (cards : Cards) (n : Nat) (c : Card)
    (h : lookupCard cards n = none) : eraseCard (dictSet cards n c) n = cards := by
  induction cards with
  | nil => simp [dictSet, eraseCard]
  | cons p rest ih =>
    obtain ⟨k, c0⟩ := p
    by_cases hk : k = n
    · subst hk
      simp [lookupCard] at h
    · simp [lookupCard, hk] at h
      simp [dictSet, eraseCard, hk, ih h]

theorem lookup_modify_self (cards : Cards) (n : Nat) (f : Card → Card) :
    lookupCard (modifyCard cards n f) n = (lookupCard cards n).map f := by
  induction cards with
  | nil => simp [modifyCard, lookupCard]
  | cons p rest ih =>
    obtain ⟨k, c0⟩ := p
    by_cases h : k = n <;> simp [modifyCard, lookupCard, h, ih]

theorem lookup_modify_ne (cards : Cards) (n m : Nat) (f : Card → Card) (h : m ≠ n) :
    lookupCard (modifyCard cards n f) m = lookupCard cards m := by
  induction cards with
  | nil => simp [modifyCard, lookupCard]
  | cons p rest ih =>
    obtain ⟨k, c0⟩ := p
    by_cases hk : k = n
    · subst hk
      simp [modifyCard, lookupCard, Ne.symm h]
    · simp [modifyCard, lookupCard, hk, ih]

theorem modifyCard_id (cards : Cards) (n : Nat) :
    modifyCard cards n (fun c => c) = cards := by
  induction cards with
  | nil => simp [modifyCard]
  | cons p rest ih =>
    obtain ⟨k, c0⟩ := p
    by_cases h : k = n <;> simp [modifyCard, h, ih]

theorem lookup_mem (cards : Cards) (n : Nat) (c : Card)
    (h : lookupCard cards n = some c) : (n, c) ∈ cards := by
  induction cards with
  | nil => simp [lookupCard] at h
  | cons p rest ih =>
    obtain ⟨k, c0⟩ := p
    by_cases hk : k = n
    · subst hk
      simp [lookupCard] at h
      simp [h]
    · simp [lookupCard, hk] at h
      exact List.mem_cons_of_mem _ (ih h)

/-! ### Invariant-preservation lemmas for the dict primitives -/

theorem statusInv_modify (cards : Cards) (n : Nat) (f : Card → Card)
    (hf : ∀ c, statusOk c.status = true → statusOk (f c).status = true)
    (h : StatusInvL cards) : StatusInvL (modifyCard cards n f) := by
  induction cards with
  | nil => simpa [modifyCard] using h
  | cons p rest ih =>
    obtain ⟨k, c0⟩ := p
    have hhead : statusOk c0.status = true := h (k, c0) (List.mem_cons_self _ _)
    have hrest : StatusInvL rest := fun q hq => h q (List.mem_cons_of_mem _ hq)
    by_cases hk : k = n
    · simp only [modifyCard, hk, if_pos rfl]
      intro q hq
      rcases List.mem_cons.mp hq with hq | hq
      · subst hq
        exact hf c0 hhead
      · exact hrest q hq
    · simp only [modifyCard, if_neg hk]
      intro q hq
      rcases List.mem_cons.mp hq with hq | hq
      · subst hq
        exact hhead
      · exact ih hrest q hq

theorem statusInv_dictSet (cards : Cards) (n : Nat) (c : Card)
    (hc : statusOk c.status = true) (h : StatusInvL cards) :
    StatusInvL (dictSet cards n c) := by
  induction cards with
  | nil =>
    intro q hq
    simp [dictSet] at hq
    subst hq
    exact hc
  | cons p rest ih =>
    obtain ⟨k, c0⟩ := p
    have hhead : statusOk c0.status = true := h (k, c0) (List.mem_cons_self _ _)
    have hrest : StatusInvL rest := fun q hq => h q (List.mem_cons_of_mem _ hq)
    by_cases hk : k = n
    · simp only [dictSet, hk, if_pos rfl]
      intro q hq
      rcases List.mem_cons.mp hq with hq | hq
      · subst hq; exact hc
      · exact hrest q hq
    · simp only [dictSet, if_neg hk]
      intro q hq
      rcases List.mem_cons.mp hq with hq | hq
      · subst hq; exact hhead
      · exact ih hrest q hq

theorem statusInv_erase (cards : Cards) (n : Nat) (h : StatusInvL cards) :
    StatusInvL (eraseCard cards n) := by
  induction cards with
  | nil => simpa [eraseCard] using h
  | cons p rest ih =>
    obtain ⟨k, c0⟩ := p
    have hhead : statusOk c0.status = true := h (k, c0) (List.mem_cons_self _ _)
    have hrest : StatusInvL rest := fun q hq => h q (List.mem_cons_of_mem _ hq)
    by_cases hk : k = n
    · simp only [eraseCard, hk, if_pos rfl]
      exact hrest
    · simp only [eraseCard, if_neg hk]
      intro q hq
      rcases List.mem_cons.mp hq with hq | hq
      · subst hq; exact hhead
      · exact ih hrest q hq

/-! ### Setter characterizations -/

theorem setPlainField_number (c : Card) (field : String) (v : Value) :
    (setPlainField c field v).number = c.number := by
  simp only [setPlainField, apply_ite Card.number]
  simp [ite_self]

theorem setPlainField_status_of_ne (c : Card) (field : String) (v : Value)
    (h : field ≠ "status") : (setPlainField c field v).status = c.status := by
  simp only [setPlainField, apply_ite Card.status]
  simp [h, ite_self]

theorem statusOk_of_not_bad (s : String) (h : statusBad s = false) :
    statusOk (Value.str (pyLower s)) = true := by
  simp only [statusBad, Bool.not_eq_false'] at h
  simpa [statusOk] using h

theorem mem_field_setters (field : String) :
    field ∈ field_setters ↔
      field = "name" ∨ field = "quantity" ∨ field = "status" ∨ field = "supplier" ∨
        field = "cost" ∨ field = "arrival_date" ∨ field = "article" := by
  simp [field_setters]

theorem applySetter_name (cards : Cards) (n : Nat) (v : Value) :
    applySetter cards n "name" v = set_name cards n v := rfl

theorem applySetter_quantity (cards : Cards) (n : Nat) (v : Value) :
    applySetter cards n "quantity" v = set_quantity cards n v := rfl

theorem applySetter_status (cards : Cards) (n : Nat) (v : Value) :
    applySetter cards n "status" v = set_status cards n v := rfl

theorem applySetter_supplier (cards : Cards) (n : Nat) (v : Value) :
    applySetter cards n "supplier" v = set_supplier cards n v := rfl

theorem applySetter_cost (cards : Cards) (n : Nat) (v : Value) :
    applySetter cards n "cost" v = set_cost cards n v := rfl

theorem applySetter_arrival (cards : Cards) (n : Nat) (v : Value) :
    applySetter cards n "arrival_date" v = set_arrival_date cards n v := rfl

theorem applySetter_article (cards : Cards) (n : Nat) (v : Value) :
    applySetter cards n "article" v = set_article cards n v := rfl

theorem set_name_ok_shape (cards : Cards) (n : Nat) (v : Value) (cards2 : Cards)
    (h : set_name cards n v = .ok cards2) :
    ∃ s, v = .str s ∧ nameBad s = false ∧
      cards2 = modifyCard cards n (fun c => { c with name := Value.str s }) := by
  cases v with
  | str s =>
    simp only [set_name] at h
    by_cases hb : nameBad s = true
    · rw [if_pos hb] at h; simp at h
    · rw [if_neg hb] at h
      refine ⟨s, rfl, by simpa using hb, ?_⟩
      cases h; rfl
  | int k => simp [set_name] at h
  | rat q => simp [set_name] at h

theorem set_quantity_ok_shape (cards : Cards) (n : Nat) (v : Value) (cards2 : Cards)
    (h : set_quantity cards n v = .ok cards2) :
    numFails v = false ∧
      cards2 = modifyCard cards n (fun c => { c with quantity := v }) := by
  cases v with
  | str s => simp [set_quantity] at h
  | int q =>
    simp only [set_quantity] at h
    by_cases hq : q < 0
    · rw [if_pos hq] at h; simp at h
    · rw [if_neg hq] at h
      refine ⟨by simpa [numFails] using hq, ?_⟩
      cases h; rfl
  | rat q =>
    simp only [set_quantity] at h
    by_cases hq : q < 0
    · rw [if_pos hq] at h; simp at h
    · rw [if_neg hq] at h
      refine ⟨by simpa [numFails] using hq, ?_⟩
      cases h; rfl

theorem set_status_ok_shape (cards : Cards) (n : Nat) (v : Value) (cards2 : Cards)
    (h : set_status cards n v = .ok cards2) :
    ∃ s, v = .str s ∧ statusBad s = false ∧
      cards2 = modifyCard cards n (fun c => { c with status := Value.str (pyLower s) }) := by
  cases v with
  | str s =>
    simp only [set_status] at h
    by_cases hb : statusBad s = true
    · rw [if_pos hb] at h; simp at h
    · rw [if_neg hb] at h
      refine ⟨s, rfl, by simpa using hb, ?_⟩
      cases h; rfl
  | int k => simp [set_status] at h
  | rat q => simp [set_status] at h

theorem set_supplier_ok_shape (cards : Cards) (n : Nat) (v : Value) (cards2 : Cards)
    (h : set_supplier cards n v = .ok cards2) :
    ∃ s, v = .str s ∧ supplierBad s = false ∧
      cards2 = modifyCard cards n (fun c => { c with supplier := Value.str s }) := by
  cases v with
  | str s =>
    simp only [set_supplier] at h
    by_cases hb : supplierBad s = true
    · rw [if_pos hb] at h; simp at h
    · rw [if_neg hb] at h
      refine ⟨s, rfl, by simpa using hb, ?_⟩
      cases h; rfl
  | int k => simp [set_supplier] at h
  | rat q => simp [set_supplier] at h

theorem set_cost_ok_shape (cards : Cards) (n : Nat) (v : Value) (cards2 : Cards)
    (h : set_cost cards n v = .ok cards2) :
    numFails v = false ∧
      cards2 = modifyCard cards n (fun c => { c with cost := v }) := by
  cases v with
  | str s => simp [set_cost] at h
  | int q =>
    simp only [set_cost] at h
    by_cases hq : q < 0
    · rw [if_pos hq] at h; simp at h
    · rw [if_neg hq] at h
      refine ⟨by simpa [numFails] using hq, ?_⟩
      cases h; rfl
  | rat q =>
    simp only [set_cost] at h
    by_cases hq : q < 0
    · rw [if_pos hq] at h; simp at h
    · rw [if_neg hq] at h
      refine ⟨by simpa [numFails] using hq, ?_⟩
      cases h; rfl

theorem set_arrival_date_ok_shape (cards : Cards) (n : Nat) (v : Value) (cards2 : Cards)
    (h : set_arrival_date cards n v = .ok cards2) :
    ∃ s, v = .str s ∧ dateBad s = false ∧
      cards2 = modifyCard cards n (fun c => { c with arrival_date := Value.str s }) := by
  cases v with
  | str s =>
    simp only [set_arrival_date] at h
    by_cases hb : dateBad s = true
    · rw [if_pos hb] at h; simp at h
    · rw [if_neg hb] at h
      refine ⟨s, rfl, by simpa using hb, ?_⟩
      cases h; rfl
  | int k => simp [set_arrival_date] at h
  | rat q => simp [set_arrival_date] at h

theorem set_article_ok_shape (cards : Cards) (n : Nat) (v : Value) (cards2 : Cards)
    (h : set_article cards n v = .ok cards2) :
    ∃ s, v = .str s ∧ articleBad s = false ∧
      cards2 = modifyCard cards n (fun c => { c with article := Value.str (pyStripStr s) }) := by
  cases v with
  | str s =>
    simp only [set_article] at h
    by_cases hb : articleBad s = true
    · rw [if_pos hb] at h; simp at h
    · rw [if_neg hb] at h
      refine ⟨s, rfl, by simpa using hb, ?_⟩
      cases h; rfl
  | int k => simp [set_article] at h
  | rat q => simp [set_article] at h

/-! ### Update-loop lemmas -/

theorem updateStep_ok_shape (cards : Cards) (n : Nat) (field : String) (v : Value)
    (cards2 : Cards) (h : updateStep cards n field v = .ok cards2) :
    ∃ f, cards2 = modifyCard cards n f ∧
      (∀ c, (f c).number = c.number) ∧
      (∀ c, statusOk c.status = true → statusOk (f c).status = true) := by
  unfold updateStep at h
  by_cases hmem : field ∈ field_setters
  · rw [if_pos hmem] at h
    rcases (mem_field_setters field).mp hmem with hf | hf | hf | hf | hf | hf | hf <;> subst hf
    · rw [applySetter_name] at h
      obtain ⟨s, hv, hb, hc⟩ := set_name_ok_shape _ _ _ _ h
      exact ⟨_, hc, fun c => rfl, fun c hcs => by simpa using hcs⟩
    · rw [applySetter_quantity] at h
      obtain ⟨hb, hc⟩ := set_quantity_ok_shape _ _ _ _ h
      exact ⟨_, hc, fun c => rfl, fun c hcs => by simpa using hcs⟩
    · rw [applySetter_status] at h
      obtain ⟨s, hv, hb, hc⟩ := set_status_ok_shape _ _ _ _ h
      exact ⟨_, hc, fun c => rfl, fun c hcs => by simpa using statusOk_of_not_bad s hb⟩
    · rw [applySetter_supplier] at h
      obtain ⟨s, hv, hb, hc⟩ := set_supplier_ok_shape _ _ _ _ h
      exact ⟨_, hc, fun c => rfl, fun c hcs => by simpa using hcs⟩
    · rw [applySetter_cost] at h
      obtain ⟨hb, hc⟩ := set_cost_ok_shape _ _ _ _ h
      exact ⟨_, hc, fun c => rfl, fun c hcs => by simpa using hcs⟩
    · rw [applySetter_arrival] at h
      obtain ⟨s, hv, hb, hc⟩ := set_arrival_date_ok_shape _ _ _ _ h
      exact ⟨_, hc, fun c => rfl, fun c hcs => by simpa using hcs⟩
    · rw [applySetter_article] at h
      obtain ⟨s, hv, hb, hc⟩ := set_article_ok_shape _ _ _ _ h
      exact ⟨_, hc, fun c => rfl, fun c hcs => by simpa using hcs⟩
  · rw [if_neg hmem] at h
    by_cases hcf : field ∈ cardFields ∧ field ≠ "number"
    · rw [if_pos hcf] at h
      cases h
      refine ⟨_, rfl, fun c => setPlainField_number c field v, fun c hcs => ?_⟩
      have hne : field ≠ "status" := by
        intro hfs
        exact hmem (by rw [hfs]; decide)
      rw [setPlainField_status_of_ne c field v hne]
      exact hcs
    · rw [if_neg hcf] at h
      cases h
      exact ⟨fun c => c, (modifyCard_id cards n).symm, fun c => rfl, fun c hcs => hcs⟩

theorem updateStep_fails (cards : Cards) (n : Nat) (field : String) (v : Value)
    (h : setterFails field v = true) :
    ∃ e, updateStep cards n field v = .error e := by
  have hmem : field ∈ field_setters := by
    by_contra hmem
    rw [mem_field_setters] at hmem
    push_neg at hmem
    obtain ⟨h1, h2, h3, h4, h5, h6, h7⟩ := hmem
    simp [setterFails, h1, h2, h3, h4, h5, h6, h7] at h
  rcases (mem_field_setters field).mp hmem with hf | hf | hf | hf | hf | hf | hf <;> subst hf
  · cases v with
    | str s =>
      have hb : nameBad s = true := by simpa [setterFails] using h
      exact ⟨_, by
        simp only [updateStep]
        rw [if_pos hmem, applySetter_name]
        simp only [set_name]
        rw [if_pos hb]⟩
    | int k =>
      exact ⟨_, by
        simp only [updateStep]
        rw [if_pos hmem, applySetter_name]
        rfl⟩
    | rat q =>
      exact ⟨_, by
        simp only [updateStep]
        rw [if_pos hmem, applySetter_name]
        rfl⟩
  · cases v with
    | str s =>
      exact ⟨_, by
        simp only [updateStep]
        rw [if_pos hmem, applySetter_quantity]
        rfl⟩
    | int q =>
      have hq : q < 0 := by simpa [setterFails, numFails] using h
      exact ⟨_, by
        simp only [updateStep]
        rw [if_pos hmem, applySetter_quantity]
        simp only [set_quantity]
        rw [if_pos hq]⟩
    | rat q =>
      have hq : q < 0 := by simpa [setterFails, numFails] using h
      exact ⟨_, by
        simp only [updateStep]
        rw [if_pos hmem, applySetter_quantity]
        simp only [set_quantity]
        rw [if_pos hq]⟩
  · cases v with
    | str s =>
      have hb : statusBad s = true := by simpa [setterFails] using h
      exact ⟨_, by
        simp only [updateStep]
        rw [if_pos hmem, applySetter_status]
        simp only [set_status]
        rw [if_pos hb]⟩
    | int k =>
      exact ⟨_, by
        simp only [updateStep]
        rw [if_pos hmem, applySetter_status]
        rfl⟩
    | rat q =>
      exact ⟨_, by
        simp only [updateStep]
        rw [if_pos hmem, applySetter_status]
        rfl⟩
  · cases v with
    | str s =>
      have hb : supplierBad s = true := by simpa [setterFails] using h
      exact ⟨_, by
        simp only [updateStep]
        rw [if_pos hmem, applySetter_supplier]
        simp only [set_supplier]
        rw [if_pos hb]⟩
    | int k =>
      exact ⟨_, by
        simp only [updateStep]
        rw [if_pos hmem, applySetter_supplier]
        rfl⟩
    | rat q =>
      exact ⟨_, by
        simp only [updateStep]
        rw [if_pos hmem, applySetter_supplier]
        rfl⟩
  · cases v with
    | str s =>
      exact ⟨_, by
        simp only [updateStep]
        rw [if_pos hmem, applySetter_cost]
        rfl⟩
    | int q =>
      have hq : q < 0 := by simpa [setterFails, numFails] using h
      exact ⟨_, by
        simp only [updateStep]
        rw [if_pos hmem, applySetter_cost]
        simp only [set_cost]
        rw [if_pos hq]⟩
    | rat q =>
      have hq : q < 0 := by simpa [setterFails, numFails] using h
      exact ⟨_, by
        simp only [updateStep]
        rw [if_pos hmem, applySetter_cost]
        simp only [set_cost]
        rw [if_pos hq]⟩
  · cases v with
    | str s =>
      have hb : dateBad s = true := by simpa [setterFails] using h
      exact ⟨_, by
        simp only [updateStep]
        rw [if_pos hmem, applySetter_arrival]
        simp only [set_arrival_date]
        rw [if_pos hb]⟩
    | int k =>
      exact ⟨_, by
        simp only [updateStep]
        rw [if_pos hmem, applySetter_arrival]
        rfl⟩
    | rat q =>
      exact ⟨_, by
        simp only [updateStep]
        rw [if_pos hmem, applySetter_arrival]
        rfl⟩
  · cases v with
    | str s =>
      have hb : articleBad s = true := by simpa [setterFails] using h
      exact ⟨_, by
        simp only [updateStep]
        rw [if_pos hmem, applySetter_article]
        simp only [set_article]
        rw [if_pos hb]⟩
    | int k =>
      exact ⟨_, by
        simp only [updateStep]
        rw [if_pos hmem, applySetter_article]
        rfl⟩
    | rat q =>
      exact ⟨_, by
        simp only [updateStep]
        rw [if_pos hmem, applySetter_article]
        rfl⟩

theorem updateStep_ok_of_not_fails (cards : Cards) (n : Nat) (field : String) (v : Value)
    (h : setterFails field v = false) :
    ∃ cards2, updateStep cards n field v = .ok cards2 := by
  by_cases hmem : field ∈ field_setters
  · rcases (mem_field_setters field).mp hmem with hf | hf | hf | hf | hf | hf | hf <;> subst hf
    · cases v with
      | str s =>
        have hb : ¬ nameBad s = true := by simpa [setterFails] using h
        exact ⟨_, by
          simp only [updateStep]
          rw [if_pos hmem, applySetter_name]
          simp only [set_name]
          rw [if_neg hb]⟩
      | int k => simp [setterFails] at h
      | rat q => simp [setterFails] at h
    · cases v with
      | str s => simp [setterFails, numFails] at h
      | int q =>
        have hq : ¬ q < 0 := by simpa [setterFails, numFails] using h
        exact ⟨_, by
          simp only [updateStep]
          rw [if_pos hmem, applySetter_quantity]
          simp only [set_quantity]
          rw [if_neg hq]⟩
      | rat q =>
        have hq : ¬ q < 0 := by simpa [setterFails, numFails] using h
        exact ⟨_, by
          simp only [updateStep]
          rw [if_pos hmem, applySetter_quantity]
          simp only [set_quantity]
          rw [if_neg hq]⟩
    · cases v with
      | str s =>
        have hb : ¬ statusBad s = true := by simpa [setterFails] using h
        exact ⟨_, by
          simp only [updateStep]
          rw [if_pos hmem, applySetter_status]
          simp only [set_status]
          rw [if_neg hb]⟩
      | int k => simp [setterFails] at h
      | rat q => simp [setterFails] at h
    · cases v with
      | str s =>
        have hb : ¬ supplierBad s = true := by simpa [setterFails] using h
        exact ⟨_, by
          simp only [updateStep]
          rw [if_pos hmem, applySetter_supplier]
          simp only [set_supplier]
          rw [if_neg hb]⟩
      | int k => simp [setterFails] at h
      | rat q => simp [setterFails] at h
    · cases v with
      | str s => simp [setterFails, numFails] at h
      | int q =>
        have hq : ¬ q < 0 := by simpa [setterFails, numFails] using h
        exact ⟨_, by
          simp only [updateStep]
          rw [if_pos hmem, applySetter_cost]
          simp only [set_cost]
          rw [if_neg hq]⟩
      | rat q =>
        have hq : ¬ q < 0 := by simpa [setterFails, numFails] using h
        exact ⟨_, by
          simp only [updateStep]
          rw [if_pos hmem, applySetter_cost]
          simp only [set_cost]
          rw [if_neg hq]⟩
    · cases v with
      | str s =>
        have hb : ¬ dateBad s = true := by simpa [setterFails] using h
        exact ⟨_, by
          simp only [updateStep]
          rw [if_pos hmem, applySetter_arrival]
          simp only [set_arrival_date]
          rw [if_neg hb]⟩
      | int k => simp [setterFails] at h
      | rat q => simp [setterFails] at h
    · cases v with
      | str s =>
        have hb : ¬ articleBad s = true := by simpa [setterFails] using h
        exact ⟨_, by
          simp only [updateStep]
          rw [if_pos hmem, applySetter_article]
          simp only [set_article]
          rw [if_neg hb]⟩
      | int k => simp [setterFails] at h
      | rat q => simp [setterFails] at h
  · by_cases hcf : field ∈ cardFields ∧ field ≠ "number"
    · exact ⟨_, by
        simp only [updateStep]
        rw [if_neg hmem, if_pos hcf]⟩
    · exact ⟨_, by
        simp only [updateStep]
        rw [if_neg hmem, if_neg hcf]⟩

theorem exceptBind_ok {α β : Type} (a : α) (f : α → Except String β) :
    (bind (Except.ok a) f : Except String β) = f a := rfl

theorem exceptBind_error {α β : Type} (e : String) (f : α → Except String β) :
    (bind (Except.error e) f : Except String β) = .error e := rfl

theorem runUpdates_ok_shape (kwargs : List (String × Value)) (cards : Cards) (n : Nat)
    (cards2 : Cards) (h : runUpdates cards n kwargs = .ok cards2) :
    (∀ m, (lookupCard cards2 m).map Card.number =
        (lookupCard cards m).map Card.number) ∧
      (StatusInvL cards → StatusInvL cards2) := by
  induction kwargs generalizing cards with
  | nil =>
    simp only [runUpdates] at h
    cases h
    exact ⟨fun m => rfl, fun hi => hi⟩
  | cons p rest ih =>
    obtain ⟨field, v⟩ := p
    simp only [runUpdates] at h
    rcases hstep : updateStep cards n field v with e | cardsMid
    · rw [hstep] at h
      simp at h
    · rw [hstep] at h
      obtain ⟨f, hceq, hnum, hst⟩ := updateStep_ok_shape _ _ _ _ _ hstep
      obtain ⟨ihnum, ihst⟩ := ih cardsMid h
      subst hceq
      constructor
      · intro m
        rw [ihnum m]
        by_cases hm : m = n
        · subst hm
          rw [lookup_modify_self]
          cases hl : lookupCard cards m <;> simp [hnum]
        · rw [lookup_modify_ne _ _ _ _ hm]
      · intro hi
        exact ihst (statusInv_modify _ _ _ hst hi)

theorem runUpdates_fails (kwargs : List (String × Value)) (cards : Cards) (n : Nat)
    (h : ∃ p ∈ kwargs, setterFails p.1 p.2 = true) :
    ∃ e, runUpdates cards n kwargs = .error e := by
  induction kwargs generalizing cards with
  | nil => simp at h
  | cons p rest ih =>
    obtain ⟨field, v⟩ := p
    by_cases hp : setterFails field v = true
    · obtain ⟨e, he⟩ := updateStep_fails cards n field v hp
      refine ⟨e, ?_⟩
      simp only [runUpdates]
      rw [he]
    · have hp2 : setterFails field v = false := by simpa using hp
      obtain ⟨cardsMid, hc⟩ := updateStep_ok_of_not_fails cards n field v hp2
      have htail : ∃ q ∈ rest, setterFails q.1 q.2 = true := by
        rcases h with ⟨q, hq, hqf⟩
        rcases List.mem_cons.mp hq with hq1 | hq2
        · subst hq1
          exact absurd hqf hp
        · exact ⟨q, hq2, hqf⟩
      obtain ⟨e, he⟩ := ih cardsMid htail
      refine ⟨e, ?_⟩
      simp only [runUpdates]
      rw [hc]
      exact he

theorem update_card_not_found (st : ProductCard) (n : Nat)
    (kwargs : List (String × Value)) (h : lookupCard st.cards n = none) :
    update_card st n kwargs =
      (st, .error (.notFound ("\nКарточка с номером " ++ toString n ++ " не найдена"))) := by
  unfold update_card get_card
  rw [h]

theorem update_card_error_char (st : ProductCard) (n : Nat)
    (kwargs : List (String × Value)) (c : Card)
    (hc : lookupCard st.cards n = some c) (e : String)
    (he : runUpdates st.cards n kwargs = .error e) :
    update_card st n kwargs =
      (st, .error (.validation ("\nОшибка изменения: " ++ e))) := by
  unfold update_card get_card
  rw [hc]
  simp only
  rw [he]
  have hrestore : dictSet st.cards n c = st.cards := dictSet_lookup_eq _ _ _ hc
  simp only [hrestore]

theorem update_card_ok_char (st : ProductCard) (n : Nat)
    (kwargs : List (String × Value)) (c : Card)
    (hc : lookupCard st.cards n = some c) (cards2 : Cards)
    (hr : runUpdates st.cards n kwargs = .ok cards2) :
    update_card st n kwargs = ({ st with cards := cards2 }, .ok ()) := by
  unfold update_card get_card
  rw [hc]
  simp only
  rw [hr]

/-! ### Create-chain characterizations -/

theorem createSetters_ok_shape (cards0 : Cards) (t : Nat) (name : String)
    (quantity : Int) (status supplier : String) (cost : Rat)
    (article arrival_date : String) (c7 : Cards)
    (h : createSetters cards0 t name quantity status supplier cost article
      arrival_date = .ok c7) :
    (lookupCard c7 t = (lookupCard cards0 t).map (fun c =>
      { c with name := Value.str name, quantity := Value.int quantity,
               status := Value.str (pyLower status), supplier := Value.str supplier,
               cost := Value.rat cost, article := Value.str (pyStripStr article),
               arrival_date := Value.str arrival_date })) ∧
    (∀ m, m ≠ t → lookupCard c7 m = lookupCard cards0 m) ∧
    (StatusInvL cards0 → StatusInvL c7) := by
  unfold createSetters at h
  rcases h1 : set_name cards0 t (.str name) with e1 | c1
  · rw [h1, exceptBind_error] at h
    cases h
  rw [h1, exceptBind_ok] at h
  rcases h2 : set_quantity c1 t (.int quantity) with e2 | c2
  · rw [h2, exceptBind_error] at h
    cases h
  rw [h2, exceptBind_ok] at h
  rcases h3 : set_status c2 t (.str status) with e3 | c3
  · rw [h3, exceptBind_error] at h
    cases h
  rw [h3, exceptBind_ok] at h
  rcases h4 : set_supplier c3 t (.str supplier) with e4 | c4
  · rw [h4, exceptBind_error] at h
    cases h
  rw [h4, exceptBind_ok] at h
  rcases h5 : set_cost c4 t (.rat cost) with e5 | c5
  · rw [h5, exceptBind_error] at h
    cases h
  rw [h5, exceptBind_ok] at h
  rcases h6 : set_article c5 t (.str article) with e6 | c6
  · rw [h6, exceptBind_error] at h
    cases h
  rw [h6, exceptBind_ok] at h
  obtain ⟨s1, hv1, hb1, hm1⟩ := set_name_ok_shape _ _ _ _ h1
  injection hv1 with hs1
  subst hs1
  obtain ⟨hb2, hm2⟩ := set_quantity_ok_shape _ _ _ _ h2
  obtain ⟨s3, hv3, hb3, hm3⟩ := set_status_ok_shape _ _ _ _ h3
  injection hv3 with hs3
  subst hs3
  obtain ⟨s4, hv4, hb4, hm4⟩ := set_supplier_ok_shape _ _ _ _ h4
  injection hv4 with hs4
  subst hs4
  obtain ⟨hb5, hm5⟩ := set_cost_ok_shape _ _ _ _ h5
  obtain ⟨s6, hv6, hb6, hm6⟩ := set_article_ok_shape _ _ _ _ h6
  injection hv6 with hs6
  subst hs6
  obtain ⟨s7, hv7, hb7, hm7⟩ := set_arrival_date_ok_shape _ _ _ _ h
  injection hv7 with hs7
  subst hs7
  subst hm1 hm2 hm3 hm4 hm5 hm6 hm7
  refine ⟨?_, ?_, ?_⟩
  · simp only [lookup_modify_self]
    cases hl : lookupCard cards0 t <;> rfl
  · intro m hm
    simp only [lookup_modify_ne _ _ _ _ hm]
  · intro hi
    refine statusInv_modify _ _ _ (fun c hcs => by simpa using hcs) ?_
    refine statusInv_modify _ _ _ (fun c hcs => by simpa using hcs) ?_
    refine statusInv_modify _ _ _ (fun c hcs => by simpa using hcs) ?_
    refine statusInv_modify _ _ _ (fun c hcs => by simpa using hcs) ?_
    refine statusInv_modify _ _ _
      (fun c hcs => by simpa using statusOk_of_not_bad status hb3) ?_
    refine statusInv_modify _ _ _ (fun c hcs => by simpa using hcs) ?_
    exact statusInv_modify _ _ _ (fun c hcs => by simpa using hcs) hi

theorem createSetters_fails (cards0 : Cards) (t : Nat) (name : String)
    (quantity : Int) (status supplier : String) (cost : Rat)
    (article arrival_date : String)
    (h : (nameBad name || decide (quantity < 0) || statusBad status ||
      supplierBad supplier || decide (cost < 0) || articleBad article ||
      dateBad arrival_date) = true) :
    ∃ e, createSetters cards0 t name quantity status supplier cost article
      arrival_date = .error e := by
  by_cases hb1 : nameBad name = true
  · exact ⟨_, by
      unfold createSetters
      simp only [set_name]
      rw [if_pos hb1, exceptBind_error]⟩
  have e1 : set_name cards0 t (.str name) =
      .ok (modifyCard cards0 t fun c => { c with name := Value.str name }) := by
    simp only [set_name]
    rw [if_neg hb1]
  by_cases hb2 : quantity < 0
  · exact ⟨_, by
      unfold createSetters
      rw [e1, exceptBind_ok]
      simp only [set_quantity]
      rw [if_pos hb2, exceptBind_error]⟩
  have e2 : ∀ cs : Cards, set_quantity cs t (.int quantity) =
      .ok (modifyCard cs t fun c => { c with quantity := Value.int quantity }) := by
    intro cs
    simp only [set_quantity]
    rw [if_neg hb2]
  by_cases hb3 : statusBad status = true
  · exact ⟨_, by
      unfold createSetters
      rw [e1, exceptBind_ok, e2, exceptBind_ok]
      simp only [set_status]
      rw [if_pos hb3, exceptBind_error]⟩
  have e3 : ∀ cs : Cards, set_status cs t (.str status) =
      .ok (modifyCard cs t fun c => { c with status := Value.str (pyLower status) }) := by
    intro cs
    simp only [set_status]
    rw [if_neg hb3]
  by_cases hb4 : supplierBad supplier = true
  · exact ⟨_, by
      unfold createSetters
      rw [e1, exceptBind_ok, e2, exceptBind_ok, e3, exceptBind_ok]
      simp only [set_supplier]
      rw [if_pos hb4, exceptBind_error]⟩
  have e4 : ∀ cs : Cards, set_supplier cs t (.str supplier) =
      .ok (modifyCard cs t fun c => { c with supplier := Value.str supplier }) := by
    intro cs
    simp only [set_supplier]
    rw [if_neg hb4]
  by_cases hb5 : cost < 0
  · exact ⟨_, by
      unfold createSetters
      rw [e1, exceptBind_ok, e2, exceptBind_ok, e3, exceptBind_ok, e4, exceptBind_ok]
      simp only [set_cost]
      rw [if_pos hb5, exceptBind_error]⟩
  have e5 : ∀ cs : Cards, set_cost cs t (.rat cost) =
      .ok (modifyCard cs t fun c => { c with cost := Value.rat cost }) := by
    intro cs
    simp only [set_cost]
    rw [if_neg hb5]
  by_cases hb6 : articleBad article = true
  · exact ⟨_, by
      unfold createSetters
      rw [e1, exceptBind_ok, e2, exceptBind_ok, e3, exceptBind_ok, e4, exceptBind_ok,
        e5, exceptBind_ok]
      simp only [set_article]
      rw [if_pos hb6, exceptBind_error]⟩
  have e6 : ∀ cs : Cards, set_article cs t (.str article) =
      .ok (modifyCard cs t fun c => { c with article := Value.str (pyStripStr article) }) := by
    intro cs
    simp only [set_article]
    rw [if_neg hb6]
  by_cases hb7 : dateBad arrival_date = true
  · exact ⟨_, by
      unfold createSetters
      rw [e1, exceptBind_ok, e2, exceptBind_ok, e3, exceptBind_ok, e4, exceptBind_ok,
        e5, exceptBind_ok, e6, exceptBind_ok]
      simp only [set_arrival_date]
      rw [if_pos hb7]⟩
  exfalso
  simp only [Bool.or_eq_true, decide_eq_true_eq] at h
  rcases h with ((((((h | h) | h) | h) | h) | h) | h)
  · exact hb1 h
  · exact hb2 h
  · exact hb3 h
  · exact hb4 h
  · exact hb5 h
  · exact hb6 h
  · exact hb7 h

theorem create_card_ok_char (st : ProductCard) (name : String) (quantity : Int)
    (status supplier manufacturer : String) (cost : Rat)
    (location article responsible arrival_date notes : String)
    (st2 : ProductCard) (k : Nat)
    (h : create_card st name quantity status supplier manufacturer cost location
      article responsible arrival_date notes = (st2, .ok k)) :
    k = st.next_number ∧ st2.next_number = st.next_number + 1 ∧
    lookupCard st2.cards st.next_number = some
      { number := st.next_number, name := Value.str name,
        quantity := Value.int quantity, status := Value.str (pyLower status),
        supplier := Value.str supplier, manufacturer := Value.str manufacturer,
        cost := Value.rat cost, location := Value.str location,
        arrival_date := Value.str arrival_date,
        article := Value.str (pyStripStr article),
        responsible := Value.str responsible, notes := Value.str notes } ∧
    (∀ m, m ≠ st.next_number → lookupCard st2.cards m = lookupCard st.cards m) ∧
    (StatusInvL st.cards → StatusInvL st2.cards) := by
  unfold create_card at h
  simp only [] at h
  rcases hs : createSetters
      (dictSet st.cards st.next_number
        (placeholderCard st.next_number manufacturer location responsible notes))
      st.next_number name quantity status supplier cost article arrival_date
    with e | c7
  · rw [hs] at h
    simp at h
  · rw [hs] at h
    obtain ⟨hl, hne, hinv⟩ := createSetters_ok_shape _ _ _ _ _ _ _ _ _ _ hs
    simp only [Prod.mk.injEq] at h
    obtain ⟨hst2, hk⟩ := h
    subst hst2
    cases hk
    refine ⟨rfl, rfl, ?_, ?_, ?_⟩
    · rw [hl, lookup_dictSet_self]
      rfl
    · intro m hm
      rw [hne m hm, lookup_dictSet_ne _ _ _ _ hm]
    · intro hi
      exact hinv (statusInv_dictSet _ _ _ rfl hi)

theorem create_card_bad (st : ProductCard) (name : String) (quantity : Int)
    (status supplier manufacturer : String) (cost : Rat)
    (location article responsible arrival_date notes : String)
    (hbad : (nameBad name || decide (quantity < 0) || statusBad status ||
      supplierBad supplier || decide (cost < 0) || articleBad article ||
      dateBad arrival_date) = true) :
    ∃ msg, create_card st name quantity status supplier manufacturer cost
        location article responsible arrival_date notes =
      ({ cards := eraseCard
          (dictSet st.cards st.next_number
            (placeholderCard st.next_number manufacturer location responsible notes))
          st.next_number,
         next_number := st.next_number },
       .error (.validation msg)) := by
  obtain ⟨e, hs⟩ := createSetters_fails
    (dictSet st.cards st.next_number
      (placeholderCard st.next_number manufacturer location responsible notes))
    st.next_number name quantity status supplier cost article arrival_date hbad
  refine ⟨"\nОшибка валидации данных: " ++ e, ?_⟩
  unfold create_card
  simp only []
  rw [hs]

theorem create_card_error_char (st : ProductCard) (name : String) (quantity : Int)
    (status supplier manufacturer : String) (cost : Rat)
    (location article responsible arrival_date notes : String)
    (st2 : ProductCard) (e : LedgerError)
    (h : create_card st name quantity status supplier manufacturer cost location
      article responsible arrival_date notes = (st2, .error e)) :
    st2.next_number = st.next_number ∧
    st2.cards = eraseCard
      (dictSet st.cards st.next_number
        (placeholderCard st.next_number manufacturer location responsible notes))
      st.next_number ∧
    ∃ msg, e = .validation msg := by
  unfold create_card at h
  simp only [] at h
  rcases hs : createSetters
      (dictSet st.cards st.next_number
        (placeholderCard st.next_number manufacturer location responsible notes))
      st.next_number name quantity status supplier cost article arrival_date
    with e0 | c7
  · rw [hs] at h
    simp only [Prod.mk.injEq] at h
    obtain ⟨hst2, he⟩ := h
    subst hst2
    cases he
    exact ⟨rfl, rfl, _, rfl⟩
  · rw [hs] at h
    simp at h

/-! ### Write-off characterizations and the reachable-status invariant -/

theorem write_off_not_found (st : ProductCard) (n : Nat)
    (h : lookupCard st.cards n = none) :
    write_off_card st n =
      (st, .error (.notFound ("\nКарточка с номером " ++ toString n ++ " не найдена"))) := by
  unfold write_off_card get_card
  rw [h]

theorem write_off_not_registered (st : ProductCard) (n : Nat) (c : Card)
    (hc : lookupCard st.cards n = some c) (h : c.status ≠ Value.str "учтено") :
    write_off_card st n =
      (st, .error (.policy "\nСписание возможно только для карточек в состоянии: Состоит/принято к учету")) := by
  unfold write_off_card get_card
  rw [hc]
  simp only
  rw [if_pos h]

theorem write_off_registered (st : ProductCard) (n : Nat) (c : Card)
    (hc : lookupCard st.cards n = some c) (h : c.status = Value.str "учтено") :
    write_off_card st n =
      ({ st with cards := (modifyCard st.cards n (fun c0 => { c0 with status := Value.str "списано", quantity := Value.int 0 })) }, .ok true) := by
  unfold write_off_card get_card
  rw [hc]
  simp only
  rw [if_neg (fun hne => hne h)]

theorem statusInv_applyOp (st : ProductCard) (op : Op)
    (h : StatusInvL st.cards) : StatusInvL (applyOp st op).cards := by
  cases op with
  | create name quantity status supplier manufacturer cost location article
      responsible arrival_date notes =>
    rcases hcc : create_card st name quantity status supplier manufacturer cost
        location article responsible arrival_date notes with ⟨st2, r⟩
    have happ : applyOp st (.create name quantity status supplier manufacturer
        cost location article responsible arrival_date notes) = st2 := by
      simp [applyOp, hcc]
    rw [happ]
    cases r with
    | ok k =>
      obtain ⟨_, _, _, _, hinv⟩ :=
        create_card_ok_char _ _ _ _ _ _ _ _ _ _ _ _ _ _ hcc
      exact hinv h
    | error e =>
      obtain ⟨_, hcards, _⟩ :=
        create_card_error_char _ _ _ _ _ _ _ _ _ _ _ _ _ _ hcc
      rw [hcards]
      exact statusInv_erase _ _ (statusInv_dictSet _ _ _ rfl h)
  | get n => exact h
  | update n kwargs =>
    rcases hl : lookupCard st.cards n with _ | c
    · have happ : applyOp st (.update n kwargs) = st := by
        simp [applyOp, update_card_not_found st n kwargs hl]
      rw [happ]
      exact h
    · rcases hr : runUpdates st.cards n kwargs with e | cards2
      · have happ : applyOp st (.update n kwargs) = st := by
          simp [applyOp, update_card_error_char st n kwargs c hl e hr]
        rw [happ]
        exact h
      · have happ : applyOp st (.update n kwargs) = { st with cards := cards2 } := by
          simp [applyOp, update_card_ok_char st n kwargs c hl cards2 hr]
        rw [happ]
        exact (runUpdates_ok_shape kwargs st.cards n cards2 hr).2 h
  | writeOff n =>
    rcases hl : lookupCard st.cards n with _ | c
    · have happ : applyOp st (.writeOff n) = st := by
        simp [applyOp, write_off_not_found st n hl]
      rw [happ]
      exact h
    · by_cases hs : c.status = Value.str "учтено"
      · have happ : applyOp st (.writeOff n) =
            { st with cards := (modifyCard st.cards n (fun c0 => { c0 with status := Value.str "списано", quantity := Value.int 0 })) } := by
          simp [applyOp, write_off_registered st n c hl hs]
        rw [happ]
        exact statusInv_modify _ _ _ (fun c0 hc0 => rfl) h
      · have happ : applyOp st (.writeOff n) = st := by
          simp [applyOp, write_off_not_registered st n c hl hs]
        rw [happ]
        exact h

theorem statusInv_runOps (ops : List Op) : StatusInvL (runOps ops).cards := by
  suffices hgen : ∀ st, StatusInvL st.cards → StatusInvL (ops.foldl applyOp st).cards by
    refine hgen initLedger ?_
    intro p hp
    simp [initLedger] at hp
  induction ops with
  | nil => exact fun st h => h
  | cons op rest ih => exact fun st h => ih (applyOp st op) (statusInv_applyOp st op h)

/-! ### Claim theorems -/

/-- C1, counterexample: from a fresh ledger, a create whose name fails
validation allocates number 1 and fails; the next successful create returns
the same number 1, not a strictly larger one — the allocated number is
reused, so the claim is false at this input. -/
theorem C1_counterexample :
    initLedger.next_number = 1 ∧
    (create_card initLedger "x" 1 "учтено" "ab" "m" 0 "loc" "AR" "resp" "01.01.2024" "").2
      = Except.error (LedgerError.validation
          "\nОшибка валидации данных: Наименование должно содержать не менее двух символов") ∧
    (create_card (create_card initLedger "x" 1 "учтено" "ab" "m" 0 "loc" "AR" "resp" "01.01.2024" "").1
        "ab" 1 "учтено" "ab" "m" 0 "loc" "AR" "resp" "01.01.2024" "").2
      = Except.ok 1 ∧
    ¬ (1 : Nat) > 1 := by
  exact ⟨rfl, by decide, by decide, by decide⟩

/-- C1 (amended): a failed create leaves the `next_number` counter
unchanged, so the number it attempted to allocate is *reused*: any
subsequent successful create returns exactly the number the failed attempt
allocated (not a strictly larger one). -/
theorem C1_failed_create_reuses_number (st : ProductCard) (name : String)
    (quantity : Int) (status supplier manufacturer : String) (cost : Rat)
    (location article responsible arrival_date notes : String)
    (st1 : ProductCard) (e : LedgerError)
    (h : create_card st name quantity status supplier manufacturer cost location
      article responsible arrival_date notes = (st1, .error e)) :
    st1.next_number = st.next_number ∧
    ∀ (name2 : String) (quantity2 : Int) (status2 supplier2 manufacturer2 : String)
      (cost2 : Rat) (location2 article2 responsible2 arrival_date2 notes2 : String)
      (st2 : ProductCard) (k : Nat),
      create_card st1 name2 quantity2 status2 supplier2 manufacturer2 cost2
        location2 article2 responsible2 arrival_date2 notes2 = (st2, .ok k) →
      k = st.next_number := by
  obtain ⟨hn, _, _⟩ :=
    create_card_error_char _ _ _ _ _ _ _ _ _ _ _ _ _ _ h
  refine ⟨hn, ?_⟩
  intro name2 quantity2 status2 supplier2 manufacturer2 cost2 location2
    article2 responsible2 arrival_date2 notes2 st2 k h2
  obtain ⟨hk, _, _, _, _⟩ :=
    create_card_ok_char _ _ _ _ _ _ _ _ _ _ _ _ _ _ h2
  rw [hk, hn]

/-- Witness for C1's amended theorem at a concrete failed create. -/
theorem C1_witness :
    create_card initLedger "x" 1 "учтено" "ab" "m" 0 "loc" "AR" "resp" "01.01.2024" ""
      = (initLedger, Except.error (LedgerError.validation
          "\nОшибка валидации данных: Наименование должно содержать не менее двух символов")) ∧
    initLedger.next_number = initLedger.next_number ∧
    (1 : Nat) = initLedger.next_number := by
  have h : create_card initLedger "x" 1 "учтено" "ab" "m" 0 "loc" "AR" "resp" "01.01.2024" ""
      = (initLedger, Except.error (LedgerError.validation
          "\nОшибка валидации данных: Наименование должно содержать не менее двух символов")) := by
    decide
  refine ⟨h, (C1_failed_create_reuses_number _ _ _ _ _ _ _ _ _ _ _ _ _ _ h).1, ?_⟩
  exact (C1_failed_create_reuses_number _ _ _ _ _ _ _ _ _ _ _ _ _ _ h).2
    "ab" 1 "учтено" "ab" "m" 0 "loc" "AR" "resp" "01.01.2024" "" wSt1 1 (by decide)

/-- C2: the listing operation (modelled from the spec, since `list_cards`
is called by the console but missing from the class) returns exactly the
stored cards, in storage (insertion/number) order: same length, and the
i-th listed card is the value of the i-th stored entry; being a pure
function of the state, it performs no mutation, filtering or pagination. -/
theorem C2_list_cards_full_ordered (st : ProductCard) (i : Nat) :
    (list_cards st).length = st.cards.length ∧
    (list_cards st)[i]? = st.cards[i]?.map Prod.snd := by
  constructor
  · simp [list_cards]
  · simp [list_cards]

/-- C4, counterexample: updating with the unknown field name `bogus`
(no validator, not a card key) succeeds silently — it does not fail with a
ValidationError, so the claim is false at this input. -/
theorem C4_counterexample :
    update_card wSt1 1 [("bogus", Value.str "x")] = (wSt1, Except.ok ()) := by
  decide

/-- C4 (amended): an update payload entry whose field name has no
registered validator and is not a legal card field is *silently dropped*:
the call succeeds and the ledger is unchanged. -/
theorem C4_unknown_field_ignored (st : ProductCard) (n : Nat) (c : Card)
    (field : String) (v : Value) (hc : lookupCard st.cards n = some c)
    (h1 : field ∉ field_setters) (h2 : field ∉ cardFields) :
    update_card st n [(field, v)] = (st, .ok ()) := by
  have hstep : updateStep st.cards n field v = .ok st.cards := by
    simp only [updateStep]
    rw [if_neg h1, if_neg (fun hand => h2 hand.1)]
  have hrun : runUpdates st.cards n [(field, v)] = .ok st.cards := by
    simp only [runUpdates]
    rw [hstep]
  exact update_card_ok_char st n [(field, v)] c hc st.cards hrun

/-- Witness for C4's amended theorem at the concrete unknown field. -/
theorem C4_witness :
    lookupCard wSt1.cards 1 = some wCard1 ∧
    update_card wSt1 1 [("unknown_field", Value.int 7)] = (wSt1, Except.ok ()) :=
  ⟨by decide,
   C4_unknown_field_ignored wSt1 1 wCard1 "unknown_field" (Value.int 7)
     (by decide) (by decide) (by decide)⟩

/-- C5: if any entry of the update payload fails its registered validator,
the whole call fails with a ValidationError and the returned state is
*exactly* the pre-call state — no field change from the payload survives. -/
theorem C5_update_atomic (st : ProductCard) (n : Nat)
    (kwargs : List (String × Value)) (c : Card)
    (hc : lookupCard st.cards n = some c)
    (hbad : ∃ p ∈ kwargs, setterFails p.1 p.2 = true) :
    ∃ msg, update_card st n kwargs = (st, .error (.validation msg)) := by
  obtain ⟨e, he⟩ := runUpdates_fails kwargs st.cards n hbad
  exact ⟨_, update_card_error_char st n kwargs c hc e he⟩

/-- Witness for C5 at a payload with one valid and one invalid entry. -/
theorem C5_witness :
    lookupCard wSt1.cards 1 = some wCard1 ∧
    (∃ p ∈ [("name", Value.str "ok"), ("quantity", Value.int (-5))],
      setterFails p.1 p.2 = true) ∧
    ∃ msg, update_card wSt1 1 [("name", Value.str "ok"), ("quantity", Value.int (-5))]
      = (wSt1, .error (.validation msg)) :=
  ⟨by decide, by decide,
   C5_update_atomic wSt1 1 [("name", Value.str "ok"), ("quantity", Value.int (-5))]
     wCard1 (by decide) (by decide)⟩

/-- C6: a create in which any of the seven validated fields is invalid
fails with a ValidationError and returns the store exactly as it was
(given that the number about to be allocated is not already a key, which
holds in every reachable state): same state, same size, and `get` and
`list` observe nothing new. -/
theorem C6_create_atomic (st : ProductCard) (name : String) (quantity : Int)
    (status supplier manufacturer : String) (cost : Rat)
    (location article responsible arrival_date notes : String)
    (hfresh : lookupCard st.cards st.next_number = none)
    (hbad : (nameBad name || decide (quantity < 0) || statusBad status ||
      supplierBad supplier || decide (cost < 0) || articleBad article ||
      dateBad arrival_date) = true) :
    (∃ msg, create_card st name quantity status supplier manufacturer cost
      location article responsible arrival_date notes
        = (st, .error (.validation msg))) ∧
    (create_card st name quantity status supplier manufacturer cost location
      article responsible arrival_date notes).1.cards.length = st.cards.length ∧
    (∀ m, get_card (create_card st name quantity status supplier manufacturer
      cost location article responsible arrival_date notes).1 m = get_card st m) ∧
    list_cards (create_card st name quantity status supplier manufacturer cost
      location article responsible arrival_date notes).1 = list_cards st := by
  obtain ⟨msg, hcc⟩ := create_card_bad st name quantity status supplier
    manufacturer cost location article responsible arrival_date notes hbad
  have hback : eraseCard (dictSet st.cards st.next_number
      (placeholderCard st.next_number manufacturer location responsible notes))
      st.next_number = st.cards := erase_dictSet _ _ _ hfresh
  have hstate : ProductCard.mk (eraseCard (dictSet st.cards st.next_number (placeholderCard st.next_number manufacturer location responsible notes)) st.next_number) st.next_number = st := by
    rw [hback]
  rw [hstate] at hcc
  refine ⟨⟨msg, hcc⟩, ?_, ?_, ?_⟩
  · rw [hcc]
  · intro m
    rw [hcc]
  · rw [hcc]

/-- Witness for C6 at a concrete invalid create (name too short). -/
theorem C6_witness :
    lookupCard initLedger.cards initLedger.next_number = none ∧
    (nameBad "x" || decide ((1 : Int) < 0) || statusBad "учтено" ||
      supplierBad "ab" || decide ((0 : Rat) < 0) || articleBad "AR" ||
      dateBad "01.01.2024") = true ∧
    (∃ msg, create_card initLedger "x" 1 "учтено" "ab" "m" 0 "loc" "AR" "resp"
      "01.01.2024" "" = (initLedger, .error (.validation msg))) ∧
    (create_card initLedger "x" 1 "учтено" "ab" "m" 0 "loc" "AR" "resp"
      "01.01.2024" "").1.cards.length = initLedger.cards.length :=
  ⟨by decide, by decide,
   (C6_create_atomic initLedger "x" 1 "учтено" "ab" "m" 0 "loc" "AR" "resp"
     "01.01.2024" "" (by decide) (by decide)).1,
   (C6_create_atomic initLedger "x" 1 "учтено" "ab" "m" 0 "loc" "AR" "resp"
     "01.01.2024" "" (by decide) (by decide)).2.1⟩

/-- C7: write-off fails with a PolicyError and changes nothing unless the
card's status is exactly `учтено` (registered); on a registered card it
succeeds and stores status `списано` with quantity 0, whatever the prior
quantity. -/
theorem C7_write_off_guard (st : ProductCard) (n : Nat) (c : Card)
    (hc : lookupCard st.cards n = some c) :
    (c.status ≠ Value.str "учтено" →
      write_off_card st n = (st, .error (.policy
        "\nСписание возможно только для карточек в состоянии: Состоит/принято к учету"))) ∧
    (c.status = Value.str "учтено" →
      (write_off_card st n).2 = .ok true ∧
      lookupCard (write_off_card st n).1.cards n =
        some { c with status := Value.str "списано", quantity := Value.int 0 }) := by
  constructor
  · intro h
    exact write_off_not_registered st n c hc h
  · intro h
    rw [write_off_registered st n c hc h]
    refine ⟨rfl, ?_⟩
    simp [lookup_modify_self, hc]

/-- Witness for C7: both the registered success case (on `wSt1`) and the
written-off failure case (on `wSt2`), at concrete states. -/
theorem C7_witness :
    lookupCard wSt1.cards 1 = some wCard1 ∧
    wCard1.status = Value.str "учтено" ∧
    (write_off_card wSt1 1).2 = .ok true ∧
    lookupCard (write_off_card wSt1 1).1.cards 1 =
      some { wCard1 with status := Value.str "списано", quantity := Value.int 0 } ∧
    write_off_card wSt2 1 = (wSt2, .error (.policy
      "\nСписание возможно только для карточек в состоянии: Состоит/принято к учету")) :=
  ⟨by decide, by decide,
   ((C7_write_off_guard wSt1 1 wCard1 (by decide)).2 (by decide)).1,
   ((C7_write_off_guard wSt1 1 wCard1 (by decide)).2 (by decide)).2,
   (C7_write_off_guard wSt2 1 wCard1w (by decide)).1 (by decide)⟩

/-- C8: in every state reachable from a fresh ledger by any sequence of
create / get / update / writeOff calls, every stored card's status is one
of the three enumerated strings. -/
theorem C8_status_always_enumerated (ops : List Op) (p : Nat × Card)
    (hp : p ∈ (runOps ops).cards) :
    ∃ s, p.2.status = Value.str s ∧
      (s = "ожидание" ∨ s = "учтено" ∨ s = "списано") := by
  have h := statusInv_runOps ops p hp
  cases hv : p.2.status with
  | str s =>
    rw [hv] at h
    refine ⟨s, rfl, ?_⟩
    simpa [statusOk, statusKeys, STATUSES] using h
  | int k =>
    rw [hv] at h
    simp [statusOk] at h
  | rat q =>
    rw [hv] at h
    simp [statusOk] at h

/-- Witness for C8 on a two-call trace (create then write-off). -/
theorem C8_witness :
    (1, wCard1w) ∈ (runOps [Op.create "ab" 1 "учтено" "ab" "m" 0 "loc" "AR"
      "resp" "01.01.2024" "", Op.writeOff 1]).cards ∧
    ∃ s, wCard1w.status = Value.str s ∧
      (s = "ожидание" ∨ s = "учтено" ∨ s = "списано") :=
  ⟨by decide,
   C8_status_always_enumerated
     [Op.create "ab" 1 "учтено" "ab" "m" 0 "loc" "AR" "resp" "01.01.2024" "",
      Op.writeOff 1] (1, wCard1w) (by decide)⟩

/-- C9: no update call — whatever the payload, including one containing the
key `number`, and whether the call succeeds or fails — ever changes a
stored card's number. -/
theorem C9_number_immutable (st : ProductCard) (n : Nat)
    (kwargs : List (String × Value)) (c : Card)
    (hc : lookupCard st.cards n = some c) :
    ∃ c2, lookupCard (update_card st n kwargs).1.cards n = some c2 ∧
      c2.number = c.number := by
  rcases hr : runUpdates st.cards n kwargs with e | cards2
  · rw [update_card_error_char st n kwargs c hc e hr]
    exact ⟨c, hc, rfl⟩
  · rw [update_card_ok_char st n kwargs c hc cards2 hr]
    have hnum := (runUpdates_ok_shape kwargs st.cards n cards2 hr).1 n
    rw [hc] at hnum
    cases hl : lookupCard cards2 n with
    | none =>
      rw [hl] at hnum
      simp at hnum
    | some c2 =>
      rw [hl] at hnum
      simp only [Option.map_some'] at hnum
      exact ⟨c2, rfl, by injection hnum⟩

/-- Witness for C9 at a payload that tries to overwrite `number`. -/
theorem C9_witness :
    lookupCard wSt1.cards 1 = some wCard1 ∧
    ∃ c2, lookupCard (update_card wSt1 1
        [("number", Value.int 99), ("name", Value.str "zz")]).1.cards 1 = some c2 ∧
      c2.number = wCard1.number :=
  ⟨by decide,
   C9_number_immutable wSt1 1 [("number", Value.int 99), ("name", Value.str "zz")]
     wCard1 (by decide)⟩

/-- The three status keys are already lower-case: `pyLower` fixes them. -/
theorem statusKey_lower_fix : ∀ s ∈ statusKeys, pyLower s = s := by decide

/-- C3, counterexample: on the reachable state "create a registered card,
write it off", the card's status is `списано` (written_off), yet an update
setting status back to `учтено` succeeds and changes it — so written_off
is not terminal under the public contract, and the claim is false at this
input. -/
theorem C3_counterexample :
    (lookupCard (runOps [Op.create "ab" 1 "учтено" "ab" "m" 0 "loc" "AR" "resp"
        "01.01.2024" "", Op.writeOff 1]).cards 1).map Card.status
      = some (Value.str "списано") ∧
    (update_card (runOps [Op.create "ab" 1 "учтено" "ab" "m" 0 "loc" "AR" "resp"
        "01.01.2024" "", Op.writeOff 1]) 1 [("status", Value.str "учтено")]).2
      = Except.ok () ∧
    (lookupCard (update_card (runOps [Op.create "ab" 1 "учтено" "ab" "m" 0 "loc"
        "AR" "resp" "01.01.2024" "", Op.writeOff 1]) 1
        [("status", Value.str "учтено")]).1.cards 1).map Card.status
      = some (Value.str "учтено") := by
  exact ⟨by decide, by decide, by decide⟩

/-- C3 (amended): for a written_off card, `writeOff` indeed refuses (it
fails with the PolicyError and leaves the state untouched) and `get` is
read-only by construction; but `update` accepts any of the three
enumerated statuses from any current state, so it can move the card out of
written_off: written_off is terminal only with respect to the write-off
operation, not the whole public contract. -/
theorem C3_written_off_escapable_only_by_update (st : ProductCard) (n : Nat)
    (c : Card) (hc : lookupCard st.cards n = some c)
    (hw : c.status = Value.str "списано") :
    write_off_card st n = (st, .error (.policy
      "\nСписание возможно только для карточек в состоянии: Состоит/принято к учету")) ∧
    ∀ s, s ∈ statusKeys →
      (update_card st n [("status", Value.str s)]).2 = .ok () ∧
      lookupCard (update_card st n [("status", Value.str s)]).1.cards n
        = some { c with status := Value.str s } := by
  constructor
  · refine write_off_not_registered st n c hc ?_
    rw [hw]
    decide
  · intro s hs
    have hlow : pyLower s = s := statusKey_lower_fix s hs
    have hbad : statusBad s = false := by
      simp only [statusBad, hlow, Bool.not_eq_false']
      simpa using hs
    have hstep : updateStep st.cards n "status" (Value.str s)
        = .ok (modifyCard st.cards n fun c0 => { c0 with status := Value.str (pyLower s) }) := by
      simp only [updateStep]
      rw [if_pos (show ("status" : String) ∈ field_setters by decide), applySetter_status]
      simp only [set_status]
      rw [if_neg (by simp [hbad])]
    have hrun : runUpdates st.cards n [("status", Value.str s)]
        = .ok (modifyCard st.cards n fun c0 => { c0 with status := Value.str s }) := by
      simp only [runUpdates]
      rw [hstep, hlow]
    rw [update_card_ok_char st n [("status", Value.str s)] c hc _ hrun]
    exact ⟨rfl, by simp [lookup_modify_self, hc]⟩

/-- Witness for C3's amended theorem on the concrete written-off state. -/
theorem C3_witness :
    lookupCard wSt2.cards 1 = some wCard1w ∧
    wCard1w.status = Value.str "списано" ∧
    (write_off_card wSt2 1).2 = .error (.policy
      "\nСписание возможно только для карточек в состоянии: Состоит/принято к учету") ∧
    lookupCard (update_card wSt2 1 [("status", Value.str "учтено")]).1.cards 1
      = some { wCard1w with status := Value.str "учтено" } := by
  refine ⟨by decide, by decide, ?_, ?_⟩
  · rw [(C3_written_off_escapable_only_by_update wSt2 1 wCard1w (by decide) (by decide)).1]
  · exact ((C3_written_off_escapable_only_by_update wSt2 1 wCard1w (by decide)
      (by decide)).2 "учтено" (by decide)).2

/-- C10: a successful create stores `name` and `supplier` verbatim (even
when validation measured the trimmed length) and stores `article`
stripped; a successful single-field update of `name` / `supplier` stores
the raw string, while one of `article` stores the stripped string. -/
theorem C10_raw_name_supplier_stripped_article :
    (∀ (st : ProductCard) (name : String) (quantity : Int)
      (status supplier manufacturer : String) (cost : Rat)
      (location article responsible arrival_date notes : String)
      (st2 : ProductCard) (k : Nat),
      create_card st name quantity status supplier manufacturer cost location
        article responsible arrival_date notes = (st2, .ok k) →
      ∃ c, lookupCard st2.cards k = some c ∧ c.name = Value.str name ∧
        c.supplier = Value.str supplier ∧
        c.article = Value.str (pyStripStr article)) ∧
    (∀ (st : ProductCard) (n : Nat) (c : Card) (s : String) (st2 : ProductCard),
      lookupCard st.cards n = some c →
      update_card st n [("name", Value.str s)] = (st2, .ok ()) →
      lookupCard st2.cards n = some { c with name := Value.str s }) ∧
    (∀ (st : ProductCard) (n : Nat) (c : Card) (s : String) (st2 : ProductCard),
      lookupCard st.cards n = some c →
      update_card st n [("supplier", Value.str s)] = (st2, .ok ()) →
      lookupCard st2.cards n = some { c with supplier := Value.str s }) ∧
    (∀ (st : ProductCard) (n : Nat) (c : Card) (s : String) (st2 : ProductCard),
      lookupCard st.cards n = some c →
      update_card st n [("article", Value.str s)] = (st2, .ok ()) →
      lookupCard st2.cards n = some { c with article := Value.str (pyStripStr s) }) := by
  refine ⟨?_, ?_, ?_, ?_⟩
  · intro st name quantity status supplier manufacturer cost location article
      responsible arrival_date notes st2 k h
    obtain ⟨hk, _, hl, _, _⟩ :=
      create_card_ok_char _ _ _ _ _ _ _ _ _ _ _ _ _ _ h
    subst hk
    exact ⟨_, hl, rfl, rfl, rfl⟩
  · intro st n c s st2 hc hu
    rcases hr : runUpdates st.cards n [("name", Value.str s)] with e | cards2
    · rw [update_card_error_char st n _ c hc e hr] at hu
      simp at hu
    · rw [update_card_ok_char st n _ c hc cards2 hr] at hu
      simp only [Prod.mk.injEq] at hu
      obtain ⟨hst2, _⟩ := hu
      subst hst2
      simp only [runUpdates] at hr
      rcases hstep : updateStep st.cards n "name" (Value.str s) with e0 | cmid
      · rw [hstep] at hr
        simp at hr
      · rw [hstep] at hr
        simp only [runUpdates] at hr
        cases hr
        simp only [updateStep] at hstep
        rw [if_pos (show ("name" : String) ∈ field_setters by decide),
          applySetter_name] at hstep
        obtain ⟨s2, hv, hb, hcm⟩ := set_name_ok_shape _ _ _ _ hstep
        injection hv with hv2
        subst hv2
        subst hcm
        simp [lookup_modify_self, hc]
  · intro st n c s st2 hc hu
    rcases hr : runUpdates st.cards n [("supplier", Value.str s)] with e | cards2
    · rw [update_card_error_char st n _ c hc e hr] at hu
      simp at hu
    · rw [update_card_ok_char st n _ c hc cards2 hr] at hu
      simp only [Prod.mk.injEq] at hu
      obtain ⟨hst2, _⟩ := hu
      subst hst2
      simp only [runUpdates] at hr
      rcases hstep : updateStep st.cards n "supplier" (Value.str s) with e0 | cmid
      · rw [hstep] at hr
        simp at hr
      · rw [hstep] at hr
        simp only [runUpdates] at hr
        cases hr
        simp only [updateStep] at hstep
        rw [if_pos (show ("supplier" : String) ∈ field_setters by decide),
          applySetter_supplier] at hstep
        obtain ⟨s2, hv, hb, hcm⟩ := set_supplier_ok_shape _ _ _ _ hstep
        injection hv with hv2
        subst hv2
        subst hcm
        simp [lookup_modify_self, hc]
  · intro st n c s st2 hc hu
    rcases hr : runUpdates st.cards n [("article", Value.str s)] with e | cards2
    · rw [update_card_error_char st n _ c hc e hr] at hu
      simp at hu
    · rw [update_card_ok_char st n _ c hc cards2 hr] at hu
      simp only [Prod.mk.injEq] at hu
      obtain ⟨hst2, _⟩ := hu
      subst hst2
      simp only [runUpdates] at hr
      rcases hstep : updateStep st.cards n "article" (Value.str s) with e0 | cmid
      · rw [hstep] at hr
        simp at hr
      · rw [hstep] at hr
        simp only [runUpdates] at hr
        cases hr
        simp only [updateStep] at hstep
        rw [if_pos (show ("article" : String) ∈ field_setters by decide),
          applySetter_article] at hstep
        obtain ⟨s2, hv, hb, hcm⟩ := set_article_ok_shape _ _ _ _ hstep
        injection hv with hv2
        subst hv2
        subst hcm
        simp [lookup_modify_self, hc]

/-- Witness for C10: creating with name `" ab "` (valid: trims to length 2)
stores the name with its spaces and the article stripped; single-field
updates behave the same way. -/
theorem C10_witness :
    (∃ c, lookupCard (create_card initLedger " ab " 1 "учтено" "ab" "m" 0 "loc"
        " AR " "resp" "01.01.2024" "").1.cards 1 = some c ∧
      c.name = Value.str " ab " ∧ c.supplier = Value.str "ab" ∧
      c.article = Value.str "AR") ∧
    lookupCard (update_card wSt1 1 [("name", Value.str " zz ")]).1.cards 1
      = some { wCard1 with name := Value.str " zz " } ∧
    lookupCard (update_card wSt1 1 [("supplier", Value.str " ss ")]).1.cards 1
      = some { wCard1 with supplier := Value.str " ss " } ∧
    lookupCard (update_card wSt1 1 [("article", Value.str " AA ")]).1.cards 1
      = some { wCard1 with article := Value.str "AA" } := by
  refine ⟨?_, ?_, ?_, ?_⟩
  · obtain ⟨c, hl, hn, hs, ha⟩ :=
      C10_raw_name_supplier_stripped_article.1 initLedger " ab " 1 "учтено" "ab"
        "m" 0 "loc" " AR " "resp" "01.01.2024" ""
        (create_card initLedger " ab " 1 "учтено" "ab" "m" 0 "loc" " AR " "resp"
          "01.01.2024" "").1 1 (by decide)
    exact ⟨c, hl, hn, hs, by rw [ha]; decide⟩
  · exact C10_raw_name_supplier_stripped_article.2.1 wSt1 1 wCard1 " zz "
      (update_card wSt1 1 [("name", Value.str " zz ")]).1 (by decide) (by decide)
  · exact C10_raw_name_supplier_stripped_article.2.2.1 wSt1 1 wCard1 " ss "
      (update_card wSt1 1 [("supplier", Value.str " ss ")]).1 (by decide) (by decide)
  · have := C10_raw_name_supplier_stripped_article.2.2.2 wSt1 1 wCard1 " AA "
      (update_card wSt1 1 [("article", Value.str " AA ")]).1 (by decide) (by decide)
    rw [this]
    decide

end Homework
